import Mathlib

/-!
Verification of the aloe/lettuce repository sources:
  src/lettuce/parser.py           (pyparsing Gherkin grammar)
  src/aloe/runner.py              (TestProgram.runTests callback sequencing)
  src/tests/functional/test_after_hooks.py   (lettuce after-hook multiplicities)

The parser is embedded as total recursive functions over `List Char`,
following the semantics of the pyparsing combinators that the source uses
(default whitespace skipping before terminals, no skipping for CharsNotIn,
restOfLine and White, keyword boundary checks, backtracking for Optional
and ZeroOrMore/OneOrMore).
-/

namespace Aloe

/-- Default pyparsing whitespace characters, space, newline and tab
(ParserElement.DEFAULT_WHITE_CHARS). -/
def isWS (c : Char) : Bool := c = ' ' || c = '\n' || c = '\t'

/-- Whitespace characters matched by the pyparsing White token
(space, tab, carriage return, newline). -/
def isWhiteTok (c : Char) : Bool := c = ' ' || c = '\t' || c = '\r' || c = '\n'

/-- Whitespace characters removed by Python str.strip with no argument,
by character code: space 32, tab 9, newline 10, carriage return 13,
vertical tab 11, form feed 12. -/
def pyWS (c : Char) : Bool :=
  c.toNat = 32 || c.toNat = 9 || c.toNat = 10 || c.toNat = 13 ||
  c.toNat = 11 || c.toNat = 12

/-- Skip the default pyparsing whitespace before a token. -/
def skipWS (s : List Char) : List Char := s.dropWhile isWS

/-- Skip spaces and tabs only, as LineEnd does before matching a newline. -/
def skipST (s : List Char) : List Char :=
  s.dropWhile (fun c => c = ' ' || c = '\t')

/-- Literal single-character token: skip whitespace, then match the char. -/
def lit (c : Char) (s : List Char) : Option (List Char) :=
  match skipWS s with
  | [] => none
  | c2 :: rest => if c2 = c then some rest else none

/-- Characters pyparsing Keyword treats as identifier characters
(alphanums + underscore + dollar), used for the boundary check. -/
def identChar (c : Char) : Bool := c.isAlpha || c.isDigit || c = '_' || c = '$'

/-- Keyword token: skip whitespace, match the literal word, and require that
the following character is not an identifier character. -/
def keywordTok (kw : List Char) (s : List Char) : Option (List Char) :=
  let s2 := skipWS s
  if kw.isPrefixOf s2 then
    match s2.drop kw.length with
    | [] => some []
    | c :: rest => if identChar c then none else some (c :: rest)
  else none

/-- pyparsing restOfLine: capture everything up to the next newline,
without skipping leading whitespace; the newline itself is not consumed. -/
def restOfLine (s : List Char) : List Char × List Char :=
  (s.takeWhile (fun c => !(c = '\n')), s.dropWhile (fun c => !(c = '\n')))

/-- pyparsing White(): match a maximal nonempty run of whitespace characters,
with no leading skip. -/
def white1 (s : List Char) : Option (List Char) :=
  match s with
  | [] => none
  | c :: rest => if isWhiteTok c then some (rest.dropWhile isWhiteTok) else none

/-- EOL = Suppress(lineEnd): LineEnd skips spaces and tabs, then matches a
newline (consuming it) or the end of the input. -/
def eol (s : List Char) : Option (List Char) :=
  match skipST s with
  | [] => some []
  | c :: rest => if c = '\n' then some rest else none

/-- stringEnd: succeeds only when nothing but whitespace remains. -/
def stringEnd (s : List Char) : Bool := skipWS s = []

/-- Printable characters, Python string.printable minus whitespace
(ASCII codes 33 through 126), the alphabet of Word(printables). -/
def isPrintableCh (c : Char) : Bool := 33 ≤ c.toNat && c.toNat ≤ 126

/-- Word(printables): skip whitespace, then match a maximal nonempty run of
printable characters. -/
def wordPrintables (s : List Char) : Option (List Char × List Char) :=
  let s2 := skipWS s
  let w := s2.takeWhile isPrintableCh
  match w with
  | [] => none
  | _ :: _ => some (w, s2.drop w.length)

/-- TAG = Suppress(atSign) + Word(printables) + EOL, with parse action Tag:
the token kept is the tag name. -/
def parseTAG (s : List Char) : Option (List Char × List Char) :=
  match lit '@' s with
  | none => none
  | some s1 =>
    match wordPrintables s1 with
    | none => none
    | some (w, s2) =>
      match eol s2 with
      | none => none
      | some s3 => some (w, s3)

/-- Python str.strip of trailing whitespace, structurally recursive. -/
def rstripPy : List Char → List Char
  | [] => []
  | c :: cs =>
    match rstripPy cs with
    | [] => if pyWS c then [] else [c]
    | d :: ds => c :: d :: ds

/-- Python str.strip with no argument: drop leading and trailing whitespace. -/
def stripPy (w : List Char) : List Char := rstripPy (w.dropWhile pyWS)

/-- CharsNotIn of the pipe and newline characters: a maximal nonempty run of
other characters, with no whitespace skipping. -/
def charsNotInPipeNl (s : List Char) : Option (List Char × List Char) :=
  let w := s.takeWhile (fun c => !(c = '|') && !(c = '\n'))
  match w with
  | [] => none
  | _ :: _ => some (w, s.drop w.length)

/-- OneOrMore(CharsNotIn + Suppress(pipe)) body: repeatedly match a cell then
a closing pipe; an iteration that fails is backtracked whole. -/
def cellsLoop : Nat → List Char → List (List Char) × List Char
  | 0, s => ([], s)
  | fuel + 1, s =>
    match charsNotInPipeNl s with
    | none => ([], s)
    | some (w, s1) =>
      match lit '|' s1 with
      | none => ([], s)
      | some s2 =>
        let r := cellsLoop fuel s2
        (w :: r.1, r.2)

/-- TABLE_ROW = Suppress(pipe) + OneOrMore(CharsNotIn + Suppress(pipe)) + EOL,
with the parse action stripping every cell. -/
def parseTABLE_ROW (s : List Char) : Option (List (List Char) × List Char) :=
  match lit '|' s with
  | none => none
  | some s1 =>
    match cellsLoop (s1.length + 1) s1 with
    | ([], _) => none
    | (c :: cs, s2) =>
      match eol s2 with
      | none => none
      | some s3 => some ((c :: cs).map stripPy, s3)

/-- OneOrMore of table rows. -/
def rowsLoop : Nat → List Char → List (List (List Char)) × List Char
  | 0, s => ([], s)
  | fuel + 1, s =>
    match parseTABLE_ROW s with
    | none => ([], s)
    | some (row, s1) =>
      let r := rowsLoop fuel s1
      (row :: r.1, r.2)

/-- TABLE = Group(OneOrMore(Group(TABLE_ROW))), named table. -/
def parseTABLE (s : List Char) : Option (List (List (List Char)) × List Char) :=
  match rowsLoop (s.length + 1) s with
  | ([], _) => none
  | (r :: rs, s1) => some (r :: rs, s1)

/-- A parsed statement, as built by Statement.init in the source: the
statement text is the keyword concatenated with the rest of the line, and the
table attribute exists (some) only when the optional data parsed a table. -/
structure Statement where
  statement : List Char
  table : Option (List (List (List Char)))
  deriving DecidableEq, Repr

/-- Statement construction from Statement.init: statement = keyword +
remainder; the table field is set only when table data is present. -/
def mkStatement (kw rem : List Char) (data : Option (List (List (List Char)))) :
    Statement :=
  { statement := kw ++ rem, table := data }

/-- MatchFirst of the four step keywords, in source order. -/
def parseKeyword (s : List Char) : Option (List Char × List Char) :=
  match keywordTok ("Given".toList) s with
  | some r => some ("Given".toList, r)
  | none =>
    match keywordTok ("When".toList) s with
    | some r => some ("When".toList, r)
    | none =>
      match keywordTok ("Then".toList) s with
      | some r => some ("Then".toList, r)
      | none =>
        match keywordTok ("And".toList) s with
        | some r => some ("And".toList, r)
        | none => none

/-- STATEMENT = (Given|When|Then|And) + restOfLine + Optional(TABLE), with
parse action Statement. -/
def parseSTATEMENT (s : List Char) : Option (Statement × List Char) :=
  match parseKeyword s with
  | none => none
  | some (kw, s1) =>
    let rl := restOfLine s1
    match parseTABLE rl.2 with
    | some (tbl, s2) => some (mkStatement kw rl.1 (some tbl), s2)
    | none => some (mkStatement kw rl.1 none, rl.2)

/-- ZeroOrMore of statements. -/
def stmtsLoop : Nat → List Char → List Statement × List Char
  | 0, s => ([], s)
  | fuel + 1, s =>
    match parseSTATEMENT s with
    | none => ([], s)
    | some (st, s1) =>
      let r := stmtsLoop fuel s1
      (st :: r.1, r.2)

/-- A Background block: statements filled in by Background.add_statements. -/
structure Background where
  statements : List Statement
  deriving DecidableEq, Repr

/-- BACKGROUND = Suppress(Keyword Background + colon + EOL) +
ZeroOrMore(STATEMENT), with the add_statements parse action. -/
def parseBACKGROUND (s : List Char) : Option (Background × List Char) :=
  match keywordTok ("Background".toList) s with
  | none => none
  | some s1 =>
    match lit ':' s1 with
    | none => none
    | some s2 =>
      match eol s2 with
      | none => none
      | some s3 =>
        let r := stmtsLoop (s3.length + 1) s3
        some ({ statements := r.1 }, r.2)

/-- ZeroOrMore of tags. -/
def tagsLoop : Nat → List Char → List (List Char) × List Char
  | 0, s => ([], s)
  | fuel + 1, s =>
    match parseTAG s with
    | none => ([], s)
    | some (t, s1) =>
      let r := tagsLoop fuel s1
      (t :: r.1, r.2)

/-- A Feature, as built by the TaggedBlock constructor from the FEATURE_DEFN
tokens: tags are all tokens but the last, the name is the last token, and the
statements list starts empty (nothing in the grammar ever fills it). -/
structure Feature where
  tags : List (List Char)
  name : List Char
  statements : List Statement
  deriving DecidableEq, Repr

/-- FEATURE_DEFN = ZeroOrMore(TAG) + Suppress(Keyword Feature + colon +
White()) + restOfLine, with parse action Feature. -/
def parseFEATURE_DEFN (s : List Char) : Option (Feature × List Char) :=
  let tl := tagsLoop (s.length + 1) s
  match keywordTok ("Feature".toList) tl.2 with
  | none => none
  | some s1 =>
    match lit ':' s1 with
    | none => none
    | some s2 =>
      match white1 s2 with
      | none => none
      | some s3 =>
        let rl := restOfLine s3
        some ({ tags := tl.1, name := rl.1, statements := [] }, rl.2)

/-- FEATURE = FEATURE_DEFN + Optional(BACKGROUND) + stringEnd; Optional
backtracks when BACKGROUND fails. -/
def parseFEATURE (s : List Char) : Option (Feature × Option Background) :=
  match parseFEATURE_DEFN s with
  | none => none
  | some (f, s1) =>
    match parseBACKGROUND s1 with
    | some (b, s2) => if stringEnd s2 then some (f, some b) else none
    | none => if stringEnd s1 then some (f, none) else none

/-- Faults a step dispatch can raise: an assertion-style failure, a generic
error, or a system-exiting error (one that would by default terminate the
host process). -/
inductive Fault where
  | assertion
  | generic
  | systemExiting
  deriving DecidableEq, Repr

/-- What a step does when dispatched to the step-matching backend: return
normally, or raise a fault. -/
inductive StepSpec where
  | ok
  | raises (f : Fault)
  deriving DecidableEq, Repr

/-- Outcome recorded for one step. -/
inductive Outcome where
  | passed
  | failed
  | errored
  deriving DecidableEq, Repr

/-- Modelled from the spec: the step boundary of the lettuce execution engine
(lettuce core is not under src/).  Dispatch is wrapped so that every fault,
including a system-exiting one, is caught at the step boundary and recorded
as an outcome instead of propagating (spec sections 4.6 and 7). -/
def runStepBoundary (sp : StepSpec) : Outcome :=
  match sp with
  | .ok => .passed
  | .raises .assertion => .failed
  | .raises .generic => .errored
  | .raises .systemExiting => .errored

/-- Result of running the steps of one scenario or outline example: how many
times the after_each_step hook fired, and whether any step did not pass. -/
structure StepsRun where
  hooks : Nat
  failed : Bool
  deriving DecidableEq, Repr

/-- Modelled from the spec: running a list of steps (lettuce core is not
under src/).  Without fail-fast, after a non-passing step the remaining steps
are skipped but the per-step hooks still fire for them, so the hook count is
the full list length (matching the counts asserted in
src/tests/functional/test_after_hooks.py).  With fail-fast, the failing step
fires its after hook and then aborts, so later steps get no hooks. -/
def runSteps (failfast : Bool) : List StepSpec → StepsRun
  | [] => { hooks := 0, failed := false }
  | sp :: rest =>
    match runStepBoundary sp with
    | .passed =>
      let r := runSteps failfast rest
      { hooks := r.hooks + 1, failed := r.failed }
    | _ =>
      if failfast then { hooks := 1, failed := true }
      else { hooks := rest.length + 1, failed := true }

/-- Result of running one outline: per-example after_each_step hook counts
(zero for examples never entered), after_outline hook count, and failure. -/
structure ExamplesRun where
  perExample : List Nat
  outlineHooks : Nat
  failed : Bool
  deriving DecidableEq, Repr

/-- Modelled from the spec: running the examples of a Scenario Outline
(lettuce core is not under src/).  Background steps run before each example;
after_outline fires once per example entered, including a failing one; under
fail-fast a failing example stops the remaining examples before any of their
steps or hooks run (spec section 4.6 and the counts in
src/tests/functional/test_after_hooks.py). -/
def runExamples (failfast : Bool) (bg : List StepSpec) :
    List (List StepSpec) → ExamplesRun
  | [] => { perExample := [], outlineHooks := 0, failed := false }
  | ex :: rest =>
    let p := runSteps failfast (bg ++ ex)
    if failfast && p.failed then
      { perExample := p.hooks :: rest.map (fun _ => 0),
        outlineHooks := 1, failed := true }
    else
      let r := runExamples failfast bg rest
      { perExample := p.hooks :: r.perExample,
        outlineHooks := r.outlineHooks + 1,
        failed := p.failed || r.failed }

/-- One scenario of a feature: plain steps, or an outline with examples. -/
inductive ScenKind where
  | plain (steps : List StepSpec)
  | outline (examples : List (List StepSpec))
  deriving DecidableEq, Repr

/-- Result of running one scenario object. -/
structure ScenRun where
  stepHooks : Nat
  perExample : List Nat
  outlineHooks : Nat
  failed : Bool
  deriving DecidableEq, Repr

/-- Modelled from the spec: running one scenario object (lettuce core is not
under src/).  A plain scenario runs Background steps then its own steps; an
outline runs its examples.  The per-scenario hooks belong to the caller. -/
def runScenKind (failfast : Bool) (bg : List StepSpec) : ScenKind → ScenRun
  | .plain steps =>
    let p := runSteps failfast (bg ++ steps)
    { stepHooks := p.hooks, perExample := [], outlineHooks := 0,
      failed := p.failed }
  | .outline exs =>
    let r := runExamples failfast bg exs
    { stepHooks := r.perExample.sum, perExample := r.perExample,
      outlineHooks := r.outlineHooks, failed := r.failed }

/-- Counts of after-hook invocations observed while running one feature,
together with the per-outline, per-example step-hook trace. -/
structure FeatureRun where
  each_step : Nat
  each_scenario : Nat
  outline : Nat
  each_feature : Nat
  exTrace : List (List Nat)
  failed : Bool
  deriving DecidableEq, Repr

/-- Modelled from the spec: running the scenarios of one feature (lettuce
core is not under src/).  after_each_scenario fires once per scenario object
— an outline counts as a single scenario object whose examples run inside
it, as asserted by src/tests/functional/test_after_hooks.py — and it fires
even when fail-fast aborts inside that scenario; under fail-fast no later
scenario runs or fires hooks. -/
def runScenarios (failfast : Bool) (bg : List StepSpec) :
    List ScenKind → FeatureRun
  | [] => { each_step := 0, each_scenario := 0, outline := 0,
            each_feature := 0, exTrace := [], failed := false }
  | sk :: rest =>
    let r := runScenKind failfast bg sk
    if failfast && r.failed then
      { each_step := r.stepHooks, each_scenario := 1,
        outline := r.outlineHooks, each_feature := 0,
        exTrace := [r.perExample], failed := true }
    else
      let q := runScenarios failfast bg rest
      { each_step := r.stepHooks + q.each_step,
        each_scenario := q.each_scenario + 1,
        outline := r.outlineHooks + q.outline,
        each_feature := 0,
        exTrace := r.perExample :: q.exTrace,
        failed := r.failed || q.failed }

/-- Modelled from the spec: running one feature (lettuce core is not under
src/).  after_each_feature fires exactly once, in guaranteed-finally
position, whatever happened inside (spec section 4.6 and every test of
src/tests/functional/test_after_hooks.py asserts count 1). -/
def runFeature (failfast : Bool) (bg : List StepSpec)
    (scens : List ScenKind) : FeatureRun :=
  let q := runScenarios failfast bg scens
  { q with each_feature := 1 }

/-!
Embedding of TestProgram.runTests from src/aloe/runner.py: the method calls
run_before_callbacks on the loader, then the inherited runTests, then
run_after_callbacks, as three sequential statements with no try/finally.
The inherited unittest runTests may raise (with the default exit=True it
always raises SystemExit); a raise propagates out of runTests before
run_after_callbacks is reached.
-/

/-- Invocation counters for the loader's all-level callbacks. -/
structure LoaderCallbacks where
  before_all : Nat
  after_all : Nat
  deriving DecidableEq, Repr

/-- GherkinLoader.run_before_callbacks: fire the before_all hooks once. -/
def run_before_callbacks (s : LoaderCallbacks) : LoaderCallbacks :=
  { s with before_all := s.before_all + 1 }

/-- GherkinLoader.run_after_callbacks: fire the after_all hooks once. -/
def run_after_callbacks (s : LoaderCallbacks) : LoaderCallbacks :=
  { s with after_all := s.after_all + 1 }

/-- TestProgram.runTests: before callbacks, the inherited run (which either
returns normally or raises, indicated by superRaises), then after callbacks.
The returned flag records whether the call raised; when it did, the after
callbacks were never reached. -/
def runTests (superRaises : Bool) (s : LoaderCallbacks) :
    LoaderCallbacks × Bool :=
  let s1 := run_before_callbacks s
  if superRaises then (s1, true)
  else (run_after_callbacks s1, false)

/-- A string with no leading and no trailing Python whitespace. -/
def noEdgeWS (w : List Char) : Bool :=
  (match w.head? with
   | none => true
   | some c => !(pyWS c)) &&
  (match w.getLast? with
   | none => true
   | some c => !(pyWS c))

/-- A tag name that is nonempty and contains no Python whitespace. -/
def tagWellFormed (t : List Char) : Bool :=
  !(t.isEmpty) && t.all (fun c => !(pyWS c))

/-- Input position just after a step line: what remains of the input after
the step keyword and the rest of its line, where the optional table of
STATEMENT is tried. -/
def afterStepLine (s : List Char) : List Char :=
  match parseKeyword s with
  | none => []
  | some (_, s1) => (restOfLine s1).2

theorem head_dropWhile_false (p : Char → Bool) :
    ∀ (l : List Char) (c : Char), (l.dropWhile p).head? = some c →
      p c = false := by
  intro l
  induction l with
  | nil =>
    intro c h
    simp [List.dropWhile] at h
  | cons a as ih =>
    intro c h
    rw [List.dropWhile_cons] at h
    by_cases hpa : p a = true
    · rw [if_pos hpa] at h
      exact ih c h
    · rw [if_neg hpa] at h
      simp only [List.head?_cons, Option.some_inj] at h
      subst h
      exact Bool.not_eq_true _ |>.mp hpa

theorem rstripPy_getLast (l : List Char) :
    ∀ c, (rstripPy l).getLast? = some c → pyWS c = false := by
  induction l with
  | nil =>
    intro c h
    simp [rstripPy] at h
  | cons a as ih =>
    intro c h
    rw [rstripPy] at h
    split at h
    · split at h
      · simp at h
      case _ hws =>
        simp only [List.getLast?_singleton, Option.some_inj] at h
        subst h
        exact Bool.not_eq_true _ |>.mp hws
    case _ d ds heq =>
      rw [List.getLast?_cons_cons] at h
      apply ih
      rw [heq]
      exact h

theorem rstripPy_head (l : List Char) :
    rstripPy l = [] ∨ (rstripPy l).head? = l.head? := by
  cases l with
  | nil => exact Or.inl rfl
  | cons a as =>
    rw [rstripPy]
    split
    · split
      · exact Or.inl rfl
      · exact Or.inr rfl
    · exact Or.inr rfl

theorem printable_not_pyWS (c : Char) (h : isPrintableCh c = true) :
    pyWS c = false := by
  simp only [isPrintableCh, Bool.and_eq_true, decide_eq_true_eq] at h
  simp only [pyWS, Bool.or_eq_false_iff, decide_eq_false_iff_not]
  omega

theorem mem_takeWhile_pred (p : Char → Bool) :
    ∀ (l : List Char) (c : Char), c ∈ l.takeWhile p → p c = true := by
  intro l
  induction l with
  | nil =>
    intro c hc
    simp [List.takeWhile] at hc
  | cons a as ih =>
    intro c hc
    rw [List.takeWhile_cons] at hc
    by_cases hpa : p a = true
    · rw [if_pos hpa] at hc
      rcases List.mem_cons.mp hc with he | hm
      · subst he; exact hpa
      · exact ih c hm
    · rw [if_neg hpa] at hc
      simp at hc

theorem noEdgeWS_of (w : List Char)
    (h1 : ∀ c, w.head? = some c → pyWS c = false)
    (h2 : ∀ c, w.getLast? = some c → pyWS c = false) :
    noEdgeWS w = true := by
  unfold noEdgeWS
  rw [Bool.and_eq_true]
  constructor
  · cases hh : w.head? with
    | none => rfl
    | some c =>
      have hc := h1 c hh
      simp [hc]
  · cases hh : w.getLast? with
    | none => rfl
    | some c =>
      have hc := h2 c hh
      simp [hc]

theorem stripPy_stripped (w : List Char) : noEdgeWS (stripPy w) = true := by
  apply noEdgeWS_of
  · intro c h
    unfold stripPy at h
    rcases rstripPy_head (w.dropWhile pyWS) with he | hh
    · rw [he] at h
      simp at h
    · rw [hh] at h
      exact head_dropWhile_false pyWS w c h
  · intro c h
    exact rstripPy_getLast _ c h

/-- C1 counterexample: the FEATURE grammar has no Scenario production, so the
minimal two-line feature text with a Scenario header and one Given step is
rejected (the parse returns no tree), contrary to the claim that it is
accepted. -/
theorem c1_scenario_text_rejected :
    parseFEATURE ("Feature: F\nScenario: S\n    Given step".toList) = none :=
  rfl

/-- C1 amended: the FEATURE grammar accepts only a Feature header followed by
an optional Background block; for the minimal text with a Background block
holding one Given step it returns exactly one Feature (no tags, name F) and
one Background containing exactly one Statement whose text starts with the
keyword Given. -/
theorem c1_background_feature_parses :
    parseFEATURE ("Feature: F\nBackground:\n    Given a step".toList) =
      some ({ tags := [], name := ['F'], statements := [] },
            some { statements :=
              [{ statement := "Given a step".toList, table := none }] }) :=
  rfl

/-- C2 counterexample: runTests sequences the callback calls with no
try/finally, so when the inherited unittest run raises (as it does by
default, via SystemExit with exit enabled) the after_all callbacks are never
invoked, contrary to the claim that they run on every exit path. -/
theorem c2_after_skipped_on_raise :
    (runTests true { before_all := 0, after_all := 0 }).1.after_all = 0 ∧
    (runTests true { before_all := 0, after_all := 0 }).2 = true :=
  ⟨rfl, rfl⟩

/-- C2 amended: the before_all callbacks run exactly once before the inner
run on every path; the after_all callbacks run exactly once when the
inherited runTests returns normally, and not at all when it raises. -/
theorem c2_callback_counts (b : Bool) (s : LoaderCallbacks) :
    (runTests b s).1.before_all = s.before_all + 1 ∧
    (runTests b s).1.after_all =
      (if b then s.after_all else s.after_all + 1) := by
  cases b
  · exact ⟨rfl, rfl⟩
  · exact ⟨rfl, rfl⟩

/-- C3 counterexample: for a feature with a one-step Background and one
three-example outline whose steps all pass, run without fail-fast, the
after_each_scenario hook fires once — not three times as the claim states —
because lettuce treats the whole outline as a single scenario object, as
asserted by test_success_outline in the repository. -/
theorem c3_scenario_hook_not_three :
    (runFeature false [StepSpec.ok]
      [ScenKind.outline [[StepSpec.ok, StepSpec.ok],
                         [StepSpec.ok, StepSpec.ok],
                         [StepSpec.ok, StepSpec.ok]]]).each_scenario ≠ 3 := by
  decide

/-- C3 amended: for a feature with a one-step Background and one outline of
three all-passing two-step examples, run without fail-fast, after_each_step
fires nine times, after_each_scenario once, after_outline three times, and
after_each_feature once. -/
theorem c3_hook_counts :
    runFeature false [StepSpec.ok]
      [ScenKind.outline [[StepSpec.ok, StepSpec.ok],
                         [StepSpec.ok, StepSpec.ok],
                         [StepSpec.ok, StepSpec.ok]]] =
      { each_step := 9, each_scenario := 1, outline := 3, each_feature := 1,
        exTrace := [[3, 3, 3]], failed := false } :=
  rfl

/-- C4 counterexample: for a three-example outline whose second example's
first step fails, run with fail-fast, the after_each_scenario hook fires once
— not twice as the claim states — because the outline is a single scenario
object, as asserted by test_fail_outline_failfast in the repository. -/
theorem c4_scenario_hook_not_two :
    (runFeature true [StepSpec.ok]
      [ScenKind.outline [[StepSpec.ok, StepSpec.ok],
                         [StepSpec.raises Fault.assertion, StepSpec.ok],
                         [StepSpec.ok, StepSpec.ok]]]).each_scenario ≠ 2 := by
  decide

/-- C4 amended: for a three-example outline whose second example's first step
fails under fail-fast, after_outline fires exactly twice (once per example
reached), after_each_scenario exactly once, after_each_feature exactly once,
and no step of the third example runs (its step-hook count is zero). -/
theorem c4_failfast_hook_counts :
    runFeature true [StepSpec.ok]
      [ScenKind.outline [[StepSpec.ok, StepSpec.ok],
                         [StepSpec.raises Fault.assertion, StepSpec.ok],
                         [StepSpec.ok, StepSpec.ok]]] =
      { each_step := 5, each_scenario := 1, outline := 2, each_feature := 1,
        exTrace := [[3, 2, 0]], failed := true } :=
  rfl

/-- C5: a system-exiting fault raised by a step dispatch is caught at the
step boundary and recorded as an error outcome, and the after_each_step,
after_each_scenario and after_each_feature hooks each still fire exactly
once for the enclosing step, scenario and feature. -/
theorem c5_system_exiting_caught :
    runStepBoundary (StepSpec.raises Fault.systemExiting) = Outcome.errored ∧
    runFeature false [] [ScenKind.plain [StepSpec.raises Fault.systemExiting]] =
      { each_step := 1, each_scenario := 1, outline := 0, each_feature := 1,
        exTrace := [[]], failed := true } :=
  ⟨rfl, rfl⟩

/-- C6 counterexample: the grammar has no production for triple-quoted
multi-line string blocks, so a feature whose step is followed by one fails to
parse, contrary to the claim that a step may be immediately followed by such
a block. -/
theorem c6_multiline_rejected :
    parseFEATURE
      ("Feature: F\nBackground:\nGiven x\n\"\"\"\nhello\n\"\"\"".toList) =
      none :=
  rfl

/-- C6 amended: a step may be followed immediately only by an optional
pipe-delimited table; a step with a table parses with the table attached, a
step alone parses with nothing attached, and a feature whose step is
followed by a triple-quoted block fails to parse because multi-line strings
are not part of the grammar. -/
theorem c6_table_or_nothing :
    parseSTATEMENT ("Given x\n| a |".toList) =
      some ({ statement := "Given x".toList, table := some [[['a']]] }, []) ∧
    parseSTATEMENT ("Given x".toList) =
      some ({ statement := "Given x".toList, table := none }, []) ∧
    parseFEATURE
      ("Feature: G\nBackground:\nGiven y\n\"\"\"\ntext\n\"\"\"".toList) =
      none :=
  ⟨rfl, rfl, rfl⟩

/-- C7 counterexample: a step table whose rows have two cells and one cell
parses successfully and the ragged table is attached to the statement, so
parsing does not fail on inconsistent column counts and the returned table
does not have all rows of the same column count. -/
theorem c7_ragged_table_accepted :
    parseFEATURE
      ("Feature: F\nBackground:\nGiven x\n| a | b |\n| c |".toList) =
      some ({ tags := [], name := ['F'], statements := [] },
            some { statements :=
              [{ statement := "Given x".toList,
                 table := some [[['a'], ['b']], [['c']]] }] }) :=
  rfl

/-- C7 amended: the table grammar performs no column-count consistency check;
a table whose first row has two cells and whose second row has one cell is
returned as parsed, with rows of differing lengths. -/
theorem c7_no_column_check :
    parseTABLE ("| a | b |\n| c |\n".toList) =
      some ([[['a'], ['b']], [['c']]], []) ∧
    ([['a'], ['b']] : List (List Char)).length ≠ [['c']].length :=
  ⟨rfl, by decide⟩

/-- C8: every cell of every row accepted by the table-row grammar is trimmed
of surrounding whitespace — no returned cell has a leading or trailing
whitespace character. -/
theorem c8_cells_stripped :
    ∀ s cells rest, parseTABLE_ROW s = some (cells, rest) →
      ∀ w ∈ cells, noEdgeWS w = true := by
  intro s cells rest h w hw
  unfold parseTABLE_ROW at h
  split at h
  · exact Option.noConfusion h
  case _ s1 heq1 =>
    split at h
    · exact Option.noConfusion h
    case _ c cs s2 heq2 =>
      split at h
      · exact Option.noConfusion h
      case _ s3 heq3 =>
        cases h
        rcases List.mem_map.mp hw with ⟨raw, _, hraw⟩
        rw [← hraw]
        exact stripPy_stripped raw

/-- C8 witness: the cells parsed from a concrete padded table row are free of
leading and trailing whitespace. -/
theorem c8_witness : noEdgeWS ['a'] = true ∧ noEdgeWS ['b'] = true :=
  ⟨c8_cells_stripped ("|  a  | b |\n".toList) [['a'], ['b']] [] (by rfl)
     ['a'] (by decide),
   c8_cells_stripped ("|  a  | b |\n".toList) [['a'], ['b']] [] (by rfl)
     ['b'] (by decide)⟩

/-- C9: every tag produced by the tag grammar has a nonempty name with no
whitespace characters; the tags parsed before a Feature header are bound to
that Feature in source order (the tags field is exactly the source-order tag
list); a concrete two-tag feature header binds both tags in order; and a
feature with zero tags is valid. -/
theorem c9_tags_wellformed :
    (∀ s t rest, parseTAG s = some (t, rest) → tagWellFormed t = true) ∧
    (∀ s f rest, parseFEATURE_DEFN s = some (f, rest) →
      f.tags = (tagsLoop (s.length + 1) s).1) ∧
    parseFEATURE_DEFN ("@a\n@b\nFeature: F".toList) =
      some ({ tags := [['a'], ['b']], name := ['F'], statements := [] }, []) ∧
    (parseFEATURE ("Feature: F\nBackground:\nGiven x".toList)).isSome =
      true := by
  refine ⟨?_, ?_, rfl, rfl⟩
  · intro s t rest h
    unfold parseTAG at h
    split at h
    · exact Option.noConfusion h
    case _ s1 heq1 =>
      split at h
      · exact Option.noConfusion h
      case _ w s2 heq2 =>
        split at h
        · exact Option.noConfusion h
        case _ s3 heq3 =>
          cases h
          unfold wordPrintables at heq2
          dsimp only at heq2
          split at heq2
          · exact Option.noConfusion heq2
          case _ c cs hw =>
            cases heq2
            unfold tagWellFormed
            rw [Bool.and_eq_true]
            constructor
            · rw [hw]
              rfl
            · rw [List.all_eq_true]
              intro d hd
              have hp := mem_takeWhile_pred isPrintableCh _ d hd
              have hq := printable_not_pyWS d hp
              simp [hq]
  · intro s f rest h
    unfold parseFEATURE_DEFN at h
    dsimp only at h
    split at h
    · exact Option.noConfusion h
    case _ s1 heq1 =>
      split at h
      · exact Option.noConfusion h
      case _ s2 heq2 =>
        split at h
        · exact Option.noConfusion h
        case _ s3 heq3 =>
          cases h
          rfl

/-- C9 witness: a concrete tag line parses to a nonempty, whitespace-free
tag name. -/
theorem c9_witness : tagWellFormed ['x'] = true :=
  c9_tags_wellformed.1 ("@x\n".toList) ['x'] [] (by rfl)

/-- C10: a Statement parsed from a step line carries a table exactly when the
optional data after the step line parsed as a table; when no table follows,
the table field is absent (none), modelling the source's conditional setting
of the attribute guarded by the presence of table data. -/
theorem c10_table_attr_iff_parsed :
    ∀ s st rest, parseSTATEMENT s = some (st, rest) →
      (match parseTABLE (afterStepLine s) with
       | some (t, r2) => st.table = some t ∧ rest = r2
       | none => st.table = none ∧ rest = afterStepLine s) := by
  intro s st rest h
  unfold parseSTATEMENT at h
  split at h
  · exact Option.noConfusion h
  case _ kw s1 heq1 =>
    dsimp only at h
    have ha : afterStepLine s = (restOfLine s1).2 := by
      unfold afterStepLine
      rw [heq1]
    rw [ha]
    split at h
    · rename_i tbl s2 heq2
      cases h
      exact ⟨rfl, rfl⟩
    · rename_i heq2
      cases h
      exact ⟨rfl, rfl⟩


/-- C10 witness: a concrete step line with no following table parses to a
Statement whose table field is absent. -/
theorem c10_witness :
    ({ statement := "Given x".toList, table := none } : Statement).table =
      none ∧
    ([] : List Char) = afterStepLine ("Given x".toList) :=
  c10_table_attr_iff_parsed ("Given x".toList)
    { statement := "Given x".toList, table := none } [] (by rfl)

end Aloe
